import Mathlib

/-!
Verification of the COSC439 Group-Project system: an Arduino firmware
(`firmware.c`) running a sequence-recall memory game, an ultrasonic
presence gate and a breathing LED effect, and a companion Windows Forms
application (`PhotoApp/Form1.cs`) that conditions the serial distance
stream and drives a slideshow.

The development shallow-embeds the two state machines:
  * the game loop state (`turn`, `currentStep`, `showingSequence`,
    `waitingForInput`) with `runMemoryGame` and `checkGameInput`
    mirroring the C functions; blocking feedback routines are modelled
    as the lists of discrete output events they emit;
  * the signal conditioner state (smoothing queue, hysteresis edge
    timers, slideshow-active flag) with `ingestLine` mirroring the
    per-line body of `Port_DataReceived`; the `BeginInvoke` dispatch of
    `StartSlideshow` / `StopSlideshow` is modelled as a synchronously
    applied decision, matching the single-writer discipline of the spec.

Distances are modelled as rationals, `NaN` as `Option.none`, millisecond
clocks as naturals, and the 32-bit unsigned `millis()` subtraction with
an explicit wrap `% 2^32`.  The breathing envelope, the only genuinely
real-valued computation, is embedded over `ℝ` with `Real.exp`/`Real.sin`.
-/

/-! ## Firmware: memory game (firmware.c) -/

/-- Discrete feedback outputs emitted by the firmware: a tone of a given
frequency and duration on the speaker, a single LED driven high or low,
or all six game LEDs driven together. -/
inductive GOut where
  | note (freq : Nat) (durationMs : Nat)
  | ledOn (idx : Nat)
  | ledOff (idx : Nat)
  | ledsAllOn
  | ledsAllOff
  deriving DecidableEq, Repr

/-- Piano note frequencies wired to the six buttons
(`notes[] = {NOTE_C, NOTE_D, NOTE_E, NOTE_F, NOTE_G, NOTE_A}`). -/
def notes : List Nat := [262, 294, 330, 349, 392, 440]

/-- Predefined melody (1=C, 2=D, 3=E, 4=F, 5=G, 6=A), from
`int melody[] = {3, 3, 4, 5, 5, 4, 3, 2, 1, 1, 2, 3, 3, 2, 2};`. -/
def melody : List Nat := [3, 3, 4, 5, 5, 4, 3, 2, 1, 1, 2, 3, 3, 2, 2]

/-- `melodyLength = sizeof(melody) / sizeof(melody[0])`, i.e. 15. -/
def melodyLength : Nat := melody.length

/-- Game state: the four firmware globals mutated by the game logic.
The spec's mode is encoded as in the C code: `Showing` iff
`showingSequence`, `AwaitingInput` iff `waitingForInput`, `Idle` iff
neither. -/
structure GameState where
  turn : Nat
  currentStep : Nat
  showingSequence : Bool
  waitingForInput : Bool
  deriving DecidableEq, Repr

/-- Startup values of the game globals (`turn = 0`, `currentStep = 0`,
both mode flags false), also the state after every win/fail reset. -/
def initState : GameState := ⟨0, 0, false, false⟩

/-- Output of `playNote(noteIndex)`: checks `0 <= noteIndex-1 < 6` then
lights the LED, sounds the note for 300 ms, and releases both. -/
def playNote (noteIndex : Int) : List GOut :=
  let arrayIndex := noteIndex - 1
  if 0 ≤ arrayIndex ∧ arrayIndex < 6 then
    [GOut.ledOn arrayIndex.toNat,
     GOut.note (notes.getD arrayIndex.toNat 0) 300,
     GOut.ledOff arrayIndex.toNat]
  else []

/-- Output of `winSequence()`: all LEDs on, the four celebration tones
E-G-E-C, all LEDs off. -/
def winPattern : List GOut :=
  [GOut.ledsAllOn, GOut.note 330 400, GOut.note 392 400,
   GOut.note 330 400, GOut.note 262 600, GOut.ledsAllOff]

/-- Output of `failSequence()` before it resets the game state: three
repetitions of all-LEDs-on with tone C, then all-LEDs-off with tone G. -/
def failPattern : List GOut :=
  (List.replicate 3
    [GOut.ledsAllOn, GOut.note 262 300, GOut.ledsAllOff, GOut.note 392 300]).flatten

/-- One call of `runMemoryGame()`.  The timing test
`millis() - lastActionTime > STEP_DELAY` is abstracted as the boolean
`delayElapsed`; the rest mirrors the C body: win check and reset first,
then Idle-to-Showing entry, then one showing step (play `melody[currentStep]`
while `currentStep <= turn`, otherwise hand over to input collection). -/
def runMemoryGame (delayElapsed : Bool) (st : GameState) : GameState × List GOut :=
  if melodyLength ≤ st.turn then
    (initState, winPattern)
  else
    let st1 := if st.showingSequence = false ∧ st.waitingForInput = false then
      { st with showingSequence := true, currentStep := 0 } else st
    if st1.showingSequence = true ∧ delayElapsed = true then
      if st1.currentStep ≤ st1.turn then
        ({ st1 with currentStep := st1.currentStep + 1 },
          playNote (melody.getD st1.currentStep 0))
      else
        ({ st1 with showingSequence := false, waitingForInput := true, currentStep := 0 }, [])
    else (st1, [])

/-- One call of `checkGameInput(buttonPressed)`: ignored unless awaiting
input; a match advances `currentStep` and, on completing the prefix,
advances `turn` and leaves input mode; a mismatch runs `failSequence()`,
which emits `failPattern` and hard-resets the game state. -/
def checkGameInput (buttonPressed : Nat) (st : GameState) : GameState × List GOut :=
  if st.waitingForInput = false then (st, [])
  else
    let expectedNote := melody.getD st.currentStep 0
    if buttonPressed = expectedNote then
      let st1 := { st with currentStep := st.currentStep + 1 }
      if st.turn < st1.currentStep then
        ({ st1 with turn := st.turn + 1, waitingForInput := false }, [])
      else (st1, [])
    else (initState, failPattern)

/-- State component of `runMemoryGame`. -/
def runMemoryGameS (d : Bool) (st : GameState) : GameState := (runMemoryGame d st).1

/-- State component of `checkGameInput`. -/
def checkGameInputS (b : Nat) (st : GameState) : GameState := (checkGameInput b st).1

/-- `n` consecutive loop iterations whose step-delay has elapsed. -/
def applyTicks : Nat → GameState → GameState
  | 0, st => st
  | n + 1, st => applyTicks n (runMemoryGameS true st)

/-- A series of button presses forwarded to the game. -/
def applyPresses : List Nat → GameState → GameState
  | [], st => st
  | b :: bs, st => applyPresses bs (checkGameInputS b st)

/-- One full level played correctly from an Idle state at level
`st.turn`: the show phase takes `turn + 2` elapsed-delay iterations
(enter Showing and play step 0, play steps `1..turn`, hand over to
input), then the player presses the correct `turn + 1` buttons. -/
def levelRound (st : GameState) : GameState :=
  applyPresses (melody.take (st.turn + 1)) (applyTicks (st.turn + 2) st)

/-- Game state after `k` levels of a run in which the player always
enters the correct buttons. -/
def stateAfterLevels : Nat → GameState
  | 0 => initState
  | k + 1 => levelRound (stateAfterLevels k)

/-- States of the game reachable from startup under arbitrary
interleavings of loop iterations (with either value of the step-delay
test) and button presses forwarded by `handleButtons`. -/
inductive Reachable : GameState → Prop where
  | init : Reachable initState
  | tick (d : Bool) (st : GameState) : Reachable st → Reachable (runMemoryGameS d st)
  | press (b : Nat) (st : GameState) : Reachable st → Reachable (checkGameInputS b st)

/-- Inductive invariant of the game loop: the two mode flags are never
both set; while Showing, `turn < 15` and `currentStep ≤ turn + 1`;
while AwaitingInput, `turn < 15` and `currentStep ≤ turn`. -/
def GameInv (st : GameState) : Prop :=
  (st.showingSequence = false ∨ st.waitingForInput = false) ∧
  (st.showingSequence = true → st.turn < melodyLength ∧ st.currentStep ≤ st.turn + 1) ∧
  (st.waitingForInput = true → st.turn < melodyLength ∧ st.currentStep ≤ st.turn)

/-! ## Firmware: presence gate and breathing effect -/

/-- `THRESH_CM = 3.0f`, the presence threshold in centimetres. -/
def THRESH_CM : ℚ := 3

/-- The gate test applied to one distance sample each tick:
`!isnan(d) && d > THRESH_CM`.  A timed-out echo (`NaN`) is `none`. -/
def classify (sample : Option ℚ) : Bool :=
  match sample with
  | none => false
  | some d => decide (THRESH_CM < d)

/-- Gate value of a trace of samples: the gate is recomputed each tick
from the latest sample only (an empty trace means no sample yet). -/
def gateTrace (samples : List (Option ℚ)) : Bool :=
  classify (samples.getLastD none)

/-- `BREATH_INTERVAL = 30` ms between breathing updates. -/
def BREATH_INTERVAL : Nat := 30

/-- Modulus of the 32-bit unsigned `millis()` arithmetic. -/
def UINT32_MOD : Nat := 4294967296

/-- The unsigned 32-bit difference `now - last` computed by
`millis() - lastBreathUpdate`. -/
def elapsedMs (now last : Nat) : Nat :=
  (now % UINT32_MOD + (UINT32_MOD - last % UINT32_MOD)) % UINT32_MOD

/-- Effect of one tick on NeoPixel strip A. -/
inductive StripAOut where
  | breathe (t : Nat)
  | throttled
  | cleared
  deriving DecidableEq, Repr

/-- Returns `true` exactly on the breathing-frame output. -/
def isBreathe : StripAOut → Bool
  | StripAOut.breathe _ => true
  | _ => false

/-- The strip-A branch of `runUltrasonicSensing()` combined with
`showBreathingEffect`: if the gate accepts the fresh sample, a breathing
frame (computed from the current time) is written only when
`millis() - lastBreathUpdate > BREATH_INTERVAL`, updating
`lastBreathUpdate`; otherwise nothing is written this tick.  If the gate
rejects, `clearStrip` runs unconditionally.  Result: the strip action
and the new `lastBreathUpdate`. -/
def sensorATick (dA : Option ℚ) (now last : Nat) : StripAOut × Nat :=
  if classify dA = true then
    if BREATH_INTERVAL < elapsedMs now last then (StripAOut.breathe now, now)
    else (StripAOut.throttled, last)
  else (StripAOut.cleared, last)

/-! ## Firmware: breathing envelope (real-valued) -/

/-- `pulseSpeed = 0.5`. -/
noncomputable def pulseSpeed : ℝ := 0.5

/-- `valueMin = 120.0`, the pulse minimum value. -/
noncomputable def valueMin : ℝ := 120

/-- `valueMax = 255.0`, the pulse maximum value. -/
noncomputable def valueMax : ℝ := 255

/-- `delta = (valueMax - valueMin) / 2.35040238`. -/
noncomputable def breathDelta : ℝ := (valueMax - valueMin) / 2.35040238

/-- The breathing envelope `val` computed in `showBreathingEffect` at
time `t` (milliseconds):
`valueMin + (exp(sin(pulseSpeed * t/2000 * PI)) - 0.36787944) * delta`. -/
noncomputable def envelope (t : ℝ) : ℝ :=
  valueMin + (Real.exp (Real.sin (pulseSpeed * t / 2000 * Real.pi)) - 0.36787944) * breathDelta

/-! ## PhotoApp: signal conditioner (Form1.cs) -/

/-- A slideshow decision dispatched by the conditioner
(`BeginInvoke(StartSlideshow)` / `BeginInvoke(StopSlideshow)`). -/
inductive Decision where
  | start
  | stop
  deriving DecidableEq, Repr

/-- Conditioner state: the smoothing queue `_last` (front = oldest), the
edge timers `_belowStart` / `_aboveStart` (`DateTime.MinValue` is
`none`), and the `_slideshowOn` flag. -/
structure CondState where
  buf : List ℚ
  belowStart : Option Nat
  aboveStart : Option Nat
  slideshowOn : Bool
  deriving DecidableEq, Repr

/-- `SmoothCount = 5`, the moving-average window. -/
def SmoothCount : Nat := 5

/-- `StartThresh = 2.8` cm: slideshow turns on when below. -/
def StartThresh : ℚ := 14 / 5

/-- `StopThresh = 3.5` cm: slideshow turns off when above. -/
def StopThresh : ℚ := 7 / 2

/-- `_startDebounce = 250` ms. -/
def startDebounceMs : Nat := 250

/-- `_stopDebounce = 700` ms. -/
def stopDebounceMs : Nat := 700

/-- ASCII model of the regex word character class `\w`. -/
def isWordChar (c : Char) : Bool := c.isAlphanum || c = '_'

/-- Numeric value of a digit string. -/
def digitsVal (ds : List Char) : Nat :=
  ds.foldl (fun acc c => 10 * acc + (c.toNat - 48)) 0

/-- Matches `\s*([-+]?\d+(?:\.\d+)?)` at the head of `cs` (the text
after `B:`) and evaluates the captured decimal, exactly as
`double.TryParse` does with the invariant culture. -/
def parseNumberAt (cs : List Char) : Option ℚ :=
  let cs1 := cs.dropWhile (fun c => c.isWhitespace)
  let sgncs : ℚ × List Char :=
    match cs1 with
    | '-' :: rest => (-1, rest)
    | '+' :: rest => (1, rest)
    | _ => (1, cs1)
  let intDigits := sgncs.2.takeWhile (fun c => c.isDigit)
  let cs3 := sgncs.2.dropWhile (fun c => c.isDigit)
  if intDigits = [] then none
  else
    match cs3 with
    | '.' :: rest =>
      let fracDigits := rest.takeWhile (fun c => c.isDigit)
      if fracDigits = [] then some (sgncs.1 * digitsVal intDigits)
      else some (sgncs.1 *
        ((digitsVal intDigits : ℚ) + (digitsVal fracDigits : ℚ) / (10 : ℚ) ^ fracDigits.length))
    | _ => some (sgncs.1 * digitsVal intDigits)

/-- Left-to-right scan for the first match of
`\bB:\s*([-+]?\d+(?:\.\d+)?)` (case-insensitive on `B`), carrying the
previous character to decide the word boundary. -/
def scanForB : Option Char → List Char → Option ℚ
  | _, [] => none
  | prev, c :: rest =>
    let boundary := match prev with
      | none => true
      | some p => !isWordChar p
    let tryHere :=
      if (c = 'B' || c = 'b') && boundary then
        match rest with
        | ':' :: rest2 => parseNumberAt rest2
        | _ => none
      else none
    match tryHere with
    | some v => some v
    | none => scanForB (some c) rest

/-- `ParseDistanceB(line)`: the sensor-B field of a serial line, or
`none` (the C# `NaN`) when the regex finds no numeric `B:` field. -/
def parseDistanceB (line : String) : Option ℚ :=
  scanForB none line.data

/-- `Smoothed(cm)`: drop the oldest sample once the queue holds
`SmoothCount`, enqueue the new one, and return the new queue with the
arithmetic mean of its contents. -/
def smoothedStep (cm : ℚ) (buf : List ℚ) : List ℚ × Option ℚ :=
  let buf1 := if buf.length = SmoothCount then buf.tail else buf
  let buf2 := buf1 ++ [cm]
  (buf2, if buf2.length = 0 then none else some (buf2.sum / (buf2.length : ℚ)))

/-- The debounced hysteresis decision of `Port_DataReceived`, evaluated
on one smoothed value `b` at time `now` (ms).  The marshalled
`StartSlideshow` / `StopSlideshow` calls are modelled synchronously:
emitting a decision applies its effect on the `slideshowOn` flag. -/
def hysteresis (now : Nat) (b : ℚ) (st : CondState) : CondState × Option Decision :=
  if b < StartThresh then
    let below := st.belowStart.getD now
    let st1 := { st with belowStart := some below, aboveStart := none }
    if st.slideshowOn = false ∧ below + startDebounceMs ≤ now then
      ({ st1 with slideshowOn := true }, some Decision.start)
    else (st1, none)
  else if StopThresh < b then
    let above := st.aboveStart.getD now
    let st1 := { st with aboveStart := some above, belowStart := none }
    if st.slideshowOn = true ∧ above + stopDebounceMs ≤ now then
      ({ st1 with slideshowOn := false }, some Decision.stop)
    else (st1, none)
  else
    ({ st with belowStart := none, aboveStart := none }, none)

/-- One line of the `Port_DataReceived` loop: parse the `B:` field
(skip the line if absent), feed it through the smoothing queue (skip if
the mean is undefined), then run the hysteresis decision. -/
def ingestLine (now : Nat) (line : String) (st : CondState) : CondState × Option Decision :=
  match parseDistanceB line with
  | none => (st, none)
  | some b =>
    let sm := smoothedStep b st.buf
    match sm.2 with
    | none => ({ st with buf := sm.1 }, none)
    | some v => hysteresis now v { st with buf := sm.1 }

/-- A whole stream of timestamped lines fed through the conditioner,
collecting the emitted decisions in order. -/
def ingestAll (st : CondState) : List (Nat × String) → CondState × List Decision
  | [] => (st, [])
  | (now, line) :: rest =>
    let step1 := ingestLine now line st
    let deeper := ingestAll step1.1 rest
    (deeper.1, step1.2.toList ++ deeper.2)

/-- Strict alternation of decisions relative to the current active
flag: from inactive only `start` may come next, from active only
`stop`. -/
def alternates (active : Bool) : List Decision → Bool
  | [] => true
  | Decision.start :: ds => !active && alternates true ds
  | Decision.stop :: ds => active && alternates false ds

/-! ## PhotoApp: slideshow driver -/

/-- Slideshow presentation state: the `_slideshowOn` flag, whether
`_slideTimer` is running, the photo index `_imgIdx`, and the image
shown in `pictureBox1` (`none` when cleared). -/
structure SlideState where
  slideshowOn : Bool
  timerRunning : Bool
  imgIdx : Nat
  displayed : Option Nat
  deriving DecidableEq, Repr

/-- `StartSlideshow()`: no-op when already on; otherwise set the flag,
and if any images are loaded show the first immediately and start the
timer.  Images are abstracted as their indices into `_images`. -/
def StartSlideshow (images : List Nat) (st : SlideState) : SlideState :=
  if st.slideshowOn = true then st
  else
    let st1 := { st with slideshowOn := true }
    if images.length = 0 then st1
    else { st1 with imgIdx := 0, displayed := some (images.getD 0 0), timerRunning := true }

/-- `StopSlideshow()`: no-op when already off; otherwise clear the flag
and stop the timer, deliberately leaving `pictureBox1.Image` and
`_imgIdx` untouched. -/
def StopSlideshow (st : SlideState) : SlideState :=
  if st.slideshowOn = false then st
  else { st with slideshowOn := false, timerRunning := false }

/-- `AdvancePhoto()`: step `_imgIdx` cyclically and display that image;
inert when no images are loaded. -/
def AdvancePhoto (images : List Nat) (st : SlideState) : SlideState :=
  if images.length = 0 then st
  else
    let idx := (st.imgIdx + 1) % images.length
    { st with imgIdx := idx, displayed := some (images.getD idx 0) }

/-- A serial line whose sensor-B field is the no-echo placeholder, as
printed by `printDistance` for a timed-out measurement. -/
def lineBadB : String := "A: 12.00 cm | B: —"

/-! ## Theorems -/

/-- The last element of a trace extended by one sample. -/
theorem getLastD_concat_eq {α : Type} (l : List α) (s d : α) :
    (l ++ [s]).getLastD d = s := by
  induction l with
  | nil => rfl
  | cons a t ih =>
    cases t with
    | nil => rfl
    | cons b u => simpa using ih

/-- C5: `classify` accepts exactly the non-`NaN` samples strictly above
the 3.0 cm threshold, and the gate over a trace of samples depends only
on the latest sample, never on earlier history. -/
theorem classify_pure_threshold :
    THRESH_CM = 3 ∧
    (∀ s : Option ℚ, classify s = true ↔ ∃ v, s = some v ∧ THRESH_CM < v) ∧
    (∀ (h1 h2 : List (Option ℚ)) (s : Option ℚ),
      gateTrace (h1 ++ [s]) = gateTrace (h2 ++ [s])) := by
  refine ⟨rfl, ?_, ?_⟩
  · intro s
    cases s with
    | none => simp [classify]
    | some v => simp [classify]
  · intro h1 h2 s
    simp [gateTrace, getLastD_concat_eq]

/-- C6: on a monotone millisecond clock, a breathing frame is written
only when the gate is up and at least `BREATH_INTERVAL` (30 ms) has
passed since the previous update; whenever the gate is down the strip
is cleared on that very tick, with no interval condition. -/
theorem breathing_gate_throttle (dA : Option ℚ) (now last : Nat)
    (hmono : last ≤ now) (hwrap : now < UINT32_MOD) :
    (isBreathe (sensorATick dA now last).1 = true →
      classify dA = true ∧ BREATH_INTERVAL ≤ now - last) ∧
    (classify dA = false → (sensorATick dA now last).1 = StripAOut.cleared) := by
  constructor
  · intro hb
    by_cases hg : classify dA = true
    · refine ⟨hg, ?_⟩
      by_cases hi : BREATH_INTERVAL < elapsedMs now last
      · have he : elapsedMs now last = now - last := by
          unfold elapsedMs UINT32_MOD at *
          omega
        rw [he] at hi
        exact Nat.le_of_lt hi
      · simp [sensorATick, hg, hi, isBreathe] at hb
    · simp [sensorATick, hg, isBreathe] at hb
  · intro hg
    simp [sensorATick, hg]

/-- Witness for C6 at a concrete gate-up sample and clock. -/
theorem breathing_gate_throttle_witness :
    (isBreathe (sensorATick (some 4) 100 0).1 = true →
      classify (some 4) = true ∧ BREATH_INTERVAL ≤ 100 - 0) ∧
    (classify (some 4) = false → (sensorATick (some 4) 100 0).1 = StripAOut.cleared) :=
  breathing_gate_throttle (some 4) 100 0 (by decide) (by decide)

/-- C8: a line from which no `B:` distance parses leaves the whole
conditioner state — smoothing queue, both edge timers, active flag —
untouched and emits no decision. -/
theorem unparsable_line_no_effect (now : Nat) (line : String) (st : CondState)
    (h : parseDistanceB line = none) :
    ingestLine now line st = (st, none) := by
  simp [ingestLine, h]

/-- Witness for C8 on the firmware's no-echo placeholder line. -/
theorem unparsable_line_no_effect_witness :
    parseDistanceB lineBadB = none ∧
    ingestLine 5 lineBadB ⟨[3, 3], some 1, none, true⟩ = (⟨[3, 3], some 1, none, true⟩, none) :=
  ⟨rfl, unparsable_line_no_effect 5 lineBadB ⟨[3, 3], some 1, none, true⟩ rfl⟩

/-- C9: under the evident timer invariant (the slide timer only runs
while the slideshow is on), `StopSlideshow` halts advancement and leaves
both the displayed image and the photo index exactly as they were. -/
theorem stop_keeps_image (st : SlideState)
    (hinv : st.timerRunning = true → st.slideshowOn = true) :
    (StopSlideshow st).displayed = st.displayed ∧
    (StopSlideshow st).imgIdx = st.imgIdx ∧
    (StopSlideshow st).timerRunning = false := by
  by_cases h : st.slideshowOn = false
  · have ht : st.timerRunning = false := by
      cases htr : st.timerRunning with
      | false => rfl
      | true => rw [hinv htr] at h; exact absurd h (by simp)
    simp [StopSlideshow, h, ht]
  · simp [StopSlideshow, h]

/-- Witness for C9 on a running slideshow displaying image 7. -/
theorem stop_keeps_image_witness :
    (StopSlideshow ⟨true, true, 2, some 7⟩).displayed = some 7 ∧
    (StopSlideshow ⟨true, true, 2, some 7⟩).imgIdx = 2 ∧
    (StopSlideshow ⟨true, true, 2, some 7⟩).timerRunning = false :=
  stop_keeps_image ⟨true, true, 2, some 7⟩ (fun _ => rfl)

/-- C1: in the run where the player always answers correctly, `turn`
is exactly the number of completed levels (so it only ever steps up by
one, from 0 to 15, each round ending back outside both modes); at
`turn = 15` the very next game iteration emits the win pattern and
resets to level 0, step 0, Idle.  The last two clauses close the run
over arbitrary interleavings: extra loop iterations while awaiting
input, and button presses outside input mode, change nothing. -/
theorem game_correct_run :
    (∀ k, k ≤ 15 → (stateAfterLevels k).turn = k ∧
      (stateAfterLevels k).showingSequence = false ∧
      (stateAfterLevels k).waitingForInput = false) ∧
    (∀ d, runMemoryGame d (stateAfterLevels 15) = (initState, winPattern)) ∧
    initState = ⟨0, 0, false, false⟩ ∧
    (∀ d st, st.waitingForInput = true → st.showingSequence = false →
      st.turn < melodyLength → runMemoryGame d st = (st, [])) ∧
    (∀ b st, st.waitingForInput = false → checkGameInput b st = (st, [])) := by
  refine ⟨by decide, by decide, rfl, ?_, ?_⟩
  · intro d st hw hs ht
    obtain ⟨t, c, sh, w⟩ := st
    simp only at hw hs ht
    subst hw hs
    rw [runMemoryGame, if_neg (Nat.not_le.mpr ht)]
    simp
  · intro b st hw
    rw [checkGameInput, if_pos hw]

/-- Witness for C1: the full correct run reaches level 15, wins, and
resets; a waiting-state iteration and an out-of-mode press are inert. -/
theorem game_correct_run_witness :
    (stateAfterLevels 15).turn = 15 ∧
    runMemoryGame true (stateAfterLevels 15) = (initState, winPattern) ∧
    runMemoryGame true ⟨3, 1, false, true⟩ = (⟨3, 1, false, true⟩, []) ∧
    checkGameInput 2 ⟨3, 1, true, false⟩ = (⟨3, 1, true, false⟩, []) :=
  ⟨(game_correct_run.1 15 (by decide)).1,
   game_correct_run.2.1 true,
   game_correct_run.2.2.2.1 true ⟨3, 1, false, true⟩ rfl rfl (by decide),
   game_correct_run.2.2.2.2 2 ⟨3, 1, true, false⟩ rfl⟩

/-- C4: any accepted button (1..6) that differs from the expected
`melody[currentStep]` while awaiting input makes `checkGameInput` run
the fail feedback — three repetitions of all-LEDs-on with tone C then
all-LEDs-off with tone G — and hard-reset to level 0, step 0, Idle. -/
theorem wrong_input_fail_reset (st : GameState) (b : Nat)
    (hw : st.waitingForInput = true) (hb1 : 1 ≤ b) (hb6 : b ≤ 6)
    (hne : b ≠ melody.getD st.currentStep 0) :
    checkGameInput b st = (⟨0, 0, false, false⟩, failPattern) ∧
    failPattern = (List.replicate 3
      [GOut.ledsAllOn, GOut.note 262 300, GOut.ledsAllOff, GOut.note 392 300]).flatten := by
  refine ⟨?_, rfl⟩
  rw [checkGameInput, if_neg (by simp [hw])]
  dsimp only
  rw [if_neg hne]
  rfl

/-- Witness for C4: at level 3, step 3, pressing button 1 instead of
the expected note 5 fails and resets. -/
theorem wrong_input_fail_reset_witness :
    checkGameInput 1 ⟨3, 3, false, true⟩ = (⟨0, 0, false, false⟩, failPattern) ∧
    failPattern = (List.replicate 3
      [GOut.ledsAllOn, GOut.note 262 300, GOut.ledsAllOff, GOut.note 392 300]).flatten :=
  wrong_input_fail_reset ⟨3, 3, false, true⟩ 1 rfl (by decide) (by decide) (by decide)

/-- C2: case analysis of the hysteresis/debounce decision on a smoothed
value `v`.  Below 2.8: `belowStart` is recorded on the first crossing
(kept thereafter), `aboveStart` cleared, and `Start` is emitted iff the
slideshow is not already on and at least 250 ms have passed since
`belowStart`, in which case the active flag turns on.  Above 3.5:
symmetric with 700 ms and `Stop`.  In the dead zone `[2.8, 3.5]` both
timers are cleared, nothing is emitted and the active flag and queue
are untouched. -/
theorem hysteresis_decision_cases (now : Nat) (v : ℚ) (st : CondState) :
    (v < StartThresh →
      (hysteresis now v st).1.belowStart = some (st.belowStart.getD now) ∧
      (hysteresis now v st).1.aboveStart = none ∧
      ((hysteresis now v st).2 = some Decision.start ↔
        st.slideshowOn = false ∧ st.belowStart.getD now + startDebounceMs ≤ now) ∧
      ((hysteresis now v st).2 = some Decision.start →
        (hysteresis now v st).1.slideshowOn = true) ∧
      ((hysteresis now v st).2 = none →
        (hysteresis now v st).1.slideshowOn = st.slideshowOn) ∧
      (hysteresis now v st).2 ≠ some Decision.stop) ∧
    (StopThresh < v →
      (hysteresis now v st).1.aboveStart = some (st.aboveStart.getD now) ∧
      (hysteresis now v st).1.belowStart = none ∧
      ((hysteresis now v st).2 = some Decision.stop ↔
        st.slideshowOn = true ∧ st.aboveStart.getD now + stopDebounceMs ≤ now) ∧
      ((hysteresis now v st).2 = some Decision.stop →
        (hysteresis now v st).1.slideshowOn = false) ∧
      ((hysteresis now v st).2 = none →
        (hysteresis now v st).1.slideshowOn = st.slideshowOn) ∧
      (hysteresis now v st).2 ≠ some Decision.start) ∧
    (StartThresh ≤ v → v ≤ StopThresh →
      (hysteresis now v st).1.belowStart = none ∧
      (hysteresis now v st).1.aboveStart = none ∧
      (hysteresis now v st).1.slideshowOn = st.slideshowOn ∧
      (hysteresis now v st).1.buf = st.buf ∧
      (hysteresis now v st).2 = none) := by
  refine ⟨?_, ?_, ?_⟩
  · intro h
    rw [hysteresis, if_pos h]
    dsimp only
    by_cases hc : st.slideshowOn = false ∧ st.belowStart.getD now + startDebounceMs ≤ now
    · rw [if_pos hc]
      simpa using hc
    · rw [if_neg hc]
      simp [hc]
  · intro h
    have hns : ¬ v < StartThresh := by
      rw [not_lt]
      calc StartThresh ≤ StopThresh := by norm_num [StartThresh, StopThresh]
        _ ≤ v := le_of_lt h
    rw [hysteresis, if_neg hns, if_pos h]
    dsimp only
    by_cases hc : st.slideshowOn = true ∧ st.aboveStart.getD now + stopDebounceMs ≤ now
    · rw [if_pos hc]
      simpa using hc
    · rw [if_neg hc]
      simp [hc]
  · intro h1 h2
    rw [hysteresis, if_neg (not_lt.mpr h1), if_neg (not_lt.mpr h2)]
    simp

/-- Witness for C2 at three concrete smoothed samples, one per branch:
a debounced start, a debounced stop, and an inert dead-zone sample. -/
theorem hysteresis_decision_cases_witness :
    (hysteresis 300 2 ⟨[], some 0, some 7, false⟩).1.belowStart = some 0 ∧
    ((hysteresis 300 2 ⟨[], some 0, some 7, false⟩).2 = some Decision.start ↔
      (false = false ∧ 0 + startDebounceMs ≤ 300)) ∧
    ((hysteresis 1000 4 ⟨[], some 2, some 100, true⟩).2 = some Decision.stop ↔
      (true = true ∧ 100 + stopDebounceMs ≤ 1000)) ∧
    (hysteresis 5 3 ⟨[2], some 0, some 7, true⟩).2 = none := by
  have hA := (hysteresis_decision_cases 300 2 ⟨[], some 0, some 7, false⟩).1
    (by norm_num [StartThresh])
  have hB := (hysteresis_decision_cases 1000 4 ⟨[], some 2, some 100, true⟩).2.1
    (by norm_num [StopThresh])
  have hC := (hysteresis_decision_cases 5 3 ⟨[2], some 0, some 7, true⟩).2.2
    (by norm_num [StartThresh]) (by norm_num [StopThresh])
  exact ⟨hA.1, hA.2.2.1, hB.2.2.1, hC.2.2.2.2⟩

/-- A single ingested line can only emit `Start` from the inactive
state (turning it active), only emit `Stop` from the active state
(turning it inactive), and leaves the active flag alone when silent. -/
theorem ingest_decision_effect (now : Nat) (line : String) (st : CondState) :
    ((ingestLine now line st).2 = some Decision.start →
      st.slideshowOn = false ∧ (ingestLine now line st).1.slideshowOn = true) ∧
    ((ingestLine now line st).2 = some Decision.stop →
      st.slideshowOn = true ∧ (ingestLine now line st).1.slideshowOn = false) ∧
    ((ingestLine now line st).2 = none →
      (ingestLine now line st).1.slideshowOn = st.slideshowOn) := by
  unfold ingestLine
  cases hp : parseDistanceB line with
  | none => simp
  | some b =>
    dsimp only
    cases hm : (smoothedStep b st.buf).2 with
    | none => simp
    | some v =>
      unfold hysteresis
      dsimp only
      split_ifs <;> simp_all

/-- C3: over any stream of timestamped lines from any starting state,
the emitted decisions strictly alternate relative to the active flag —
no `Start` while active, no `Stop` while inactive — and each single
ingest call emits at most one decision. -/
theorem decisions_alternate (st : CondState) (lines : List (Nat × String)) :
    alternates st.slideshowOn (ingestAll st lines).2 = true ∧
    (∀ now line, ((ingestLine now line st).2.toList).length ≤ 1) := by
  constructor
  · induction lines generalizing st with
    | nil => simp [ingestAll, alternates]
    | cons p rest ih =>
      obtain ⟨now, line⟩ := p
      have h := ingest_decision_effect now line st
      rw [ingestAll]
      dsimp only
      cases hd : (ingestLine now line st).2 with
      | none =>
        have hon := h.2.2 hd
        simpa [hon] using ih (ingestLine now line st).1
      | some d =>
        cases d with
        | start =>
          obtain ⟨ha, hb⟩ := h.1 hd
          have := ih (ingestLine now line st).1
          rw [hb] at this
          simp [alternates, ha, this]
        | stop =>
          obtain ⟨ha, hb⟩ := h.2.1 hd
          have := ih (ingestLine now line st).1
          rw [hb] at this
          simp [alternates, ha, this]
  · intro now line
    cases (ingestLine now line st).2 <;> simp

/-- The game invariant holds at startup. -/
theorem gameInv_init : GameInv initState := by
  refine ⟨Or.inl rfl, ?_, ?_⟩ <;> intro h <;> simp [initState] at h

/-- One loop iteration of the game logic preserves the invariant. -/
theorem gameInv_tick (d : Bool) (st : GameState) (h : GameInv st) :
    GameInv (runMemoryGameS d st) := by
  obtain ⟨h1, h2, h3⟩ := h
  unfold runMemoryGameS runMemoryGame
  by_cases h15 : melodyLength ≤ st.turn
  · rw [if_pos h15]
    exact gameInv_init
  · rw [if_neg h15]
    have ht : st.turn < melodyLength := Nat.not_le.mp h15
    by_cases hidle : st.showingSequence = false ∧ st.waitingForInput = false
    · rw [if_pos hidle]
      dsimp only
      cases d with
      | false =>
        rw [if_neg (by simp)]
        exact ⟨Or.inr hidle.2, fun _ => ⟨ht, by dsimp only; omega⟩,
          fun hw => by rw [hidle.2] at hw; simp at hw⟩
      | true =>
        rw [if_pos (by simp), if_pos (Nat.zero_le _)]
        exact ⟨Or.inr hidle.2, fun _ => ⟨ht, by dsimp only; omega⟩,
          fun hw => by rw [hidle.2] at hw; simp at hw⟩
    · rw [if_neg hidle]
      dsimp only
      by_cases hshow : st.showingSequence = true ∧ d = true
      · rw [if_pos hshow]
        obtain ⟨hta, htb⟩ := h2 hshow.1
        have hwf : st.waitingForInput = false := by
          rcases h1 with hx | hx
          · rw [hshow.1] at hx; simp at hx
          · exact hx
        by_cases hct : st.currentStep ≤ st.turn
        · rw [if_pos hct]
          exact ⟨Or.inr hwf, fun _ => ⟨ht, by dsimp only; omega⟩,
            fun hw => by rw [hwf] at hw; simp at hw⟩
        · rw [if_neg hct]
          exact ⟨Or.inl rfl, fun hs => by simp at hs, fun _ => ⟨ht, by dsimp only; omega⟩⟩
      · rw [if_neg hshow]
        exact ⟨h1, h2, h3⟩

/-- One forwarded button press preserves the invariant. -/
theorem gameInv_press (b : Nat) (st : GameState) (h : GameInv st) :
    GameInv (checkGameInputS b st) := by
  obtain ⟨h1, h2, h3⟩ := h
  unfold checkGameInputS checkGameInput
  by_cases hw : st.waitingForInput = false
  · rw [if_pos hw]
    exact ⟨h1, h2, h3⟩
  · rw [if_neg hw]
    have hwt : st.waitingForInput = true := by
      cases hval : st.waitingForInput with
      | false => exact absurd hval hw
      | true => rfl
    have hsh : st.showingSequence = false := by
      rcases h1 with hx | hx
      · exact hx
      · exact absurd hx hw
    obtain ⟨hta, htb⟩ := h3 hwt
    dsimp only
    by_cases hb : b = melody.getD st.currentStep 0
    · rw [if_pos hb]
      by_cases hcc : st.turn < st.currentStep + 1
      · rw [if_pos hcc]
        exact ⟨Or.inr rfl, fun hs => by rw [hsh] at hs; simp at hs,
          fun hw2 => by simp at hw2⟩
      · rw [if_neg hcc]
        exact ⟨Or.inl hsh, fun hs => by rw [hsh] at hs; simp at hs,
          fun _ => ⟨hta, by dsimp only; omega⟩⟩
    · rw [if_neg hb]
      exact gameInv_init

/-- Every reachable game state satisfies the invariant. -/
theorem reachable_inv (st : GameState) (h : Reachable st) : GameInv st := by
  induction h with
  | init => exact gameInv_init
  | tick d st hr ih => exact gameInv_tick d st ih
  | press b st hr ih => exact gameInv_press b st ih

/-- C10: in every reachable state that is awaiting input,
`currentStep ≤ turn < 15`, so the `melody[currentStep]` lookup of
`checkGameInput` is within the 15-element melody; and every melody
entry lies in `1..6`, so the guarded note/LED table accesses of
`playNote` are in bounds. -/
theorem awaiting_input_bounds (st : GameState) (hr : Reachable st)
    (hw : st.waitingForInput = true) :
    st.currentStep ≤ st.turn ∧ st.turn < melodyLength ∧
    st.currentStep < melody.length ∧
    melody.all (fun n => decide (1 ≤ n ∧ n ≤ notes.length)) = true := by
  have h := reachable_inv st hr
  obtain ⟨hta, htb⟩ := h.2.2 hw
  have hml : melodyLength = 15 := rfl
  have hl : melody.length = 15 := rfl
  exact ⟨htb, hta, by omega, by decide⟩

/-- Witness for C10: the state reached by two elapsed-delay loop
iterations from startup is awaiting input, and the bounds hold there. -/
theorem awaiting_input_bounds_witness :
    (GameState.mk 0 0 false true).currentStep ≤ (GameState.mk 0 0 false true).turn ∧
    (GameState.mk 0 0 false true).turn < melodyLength ∧
    (GameState.mk 0 0 false true).currentStep < melody.length ∧
    melody.all (fun n => decide (1 ≤ n ∧ n ≤ notes.length)) = true := by
  have hre : Reachable (GameState.mk 0 0 false true) := by
    have h0 := Reachable.tick true initState Reachable.init
    have h1 := Reachable.tick true _ h0
    exact (show runMemoryGameS true (runMemoryGameS true initState) =
      GameState.mk 0 0 false true from rfl) ▸ h1
  exact awaiting_input_bounds (GameState.mk 0 0 false true) hre rfl

/-- C7 counterexample: at `t = 2000` ms the sine argument is exactly
`PI/2`, the envelope evaluates to
`120 + (e - 0.36787944) * 135 / 2.35040238`, and because the magic
constant `2.35040238` is slightly smaller than `e - 0.36787944`, this
exceeds `valueMax = 255` (by about `4.9e-7`). -/
theorem envelope_exceeds_max : valueMax < envelope 2000 := by
  have hx : pulseSpeed * 2000 / 2000 * Real.pi = Real.pi / 2 := by
    rw [pulseSpeed]
    norm_num
    ring
  rw [envelope, hx, Real.sin_pi_div_two, breathDelta, valueMin, valueMax]
  have he : (2.7182818283 : ℝ) < Real.exp 1 := Real.exp_one_gt_d9
  nlinarith [he]

/-- C7 amended: for every time `t`, the breathing envelope lies in
`[valueMin, valueMax + 1e-6]`: the lower bound 120 holds exactly, while
the peak can overshoot 255 by less than one millionth of a unit. -/
theorem envelope_range (t : ℝ) :
    valueMin ≤ envelope t ∧ envelope t ≤ valueMax + 1 / 1000000 := by
  set x := pulseSpeed * t / 2000 * Real.pi with hxdef
  have hs1 : Real.sin x ≤ 1 := Real.sin_le_one x
  have hs2 : -1 ≤ Real.sin x := Real.neg_one_le_sin x
  have h1 : Real.exp (Real.sin x) ≤ Real.exp 1 := Real.exp_le_exp.mpr hs1
  have h2 : Real.exp (-1) ≤ Real.exp (Real.sin x) := Real.exp_le_exp.mpr hs2
  have he1 : Real.exp 1 < 2.7182818286 := Real.exp_one_lt_d9
  have hprod : Real.exp (-1) * Real.exp 1 = 1 := by
    rw [← Real.exp_add]
    norm_num
  have he2 : (0.36787944 : ℝ) < Real.exp (-1) := by
    nlinarith [Real.exp_pos (-1), Real.exp_pos 1]
  rw [envelope, breathDelta, valueMin, valueMax]
  constructor <;> nlinarith
